import Mathlib

/-!
Verification of the max-bot-go client library against its design spec.

The Go sources under `client/` are shallowly embedded below:
* `webhook.go` — HMAC-SHA256 signature verification and webhook request
  parsing (`VerifySignature`, `ParseRequest`);
* `retry.go` / `client.go` — the bounded retry policy (`retryRequest`)
  and the per-attempt behaviour of `SendMessage`;
* the polling worker of `client/polling.go` (`pollingWorker`,
  `sendUpdateError`) — cursor tracking, blocking delivery of fetched
  events selected against cancellation, and non-blocking error records.

Bytes are modelled as `Nat` values below 256, machine words as `Nat`
reduced modulo `2^32`, Go's `int64` as `Int`, durations as natural
numbers of seconds.
-/

set_option maxRecDepth 100000

namespace MaxBot

/-! ## SHA-256 (crypto/sha256), byte-level, executable -/

/-- Reduce a natural number to a 32-bit word. -/
def w32 (n : Nat) : Nat := n % 4294967296

/-- Rotate a 32-bit word right by `k` bits. -/
def rotr (k n : Nat) : Nat := w32 ((n >>> k) ||| (n <<< (32 - k)))

def bigSigma0 (x : Nat) : Nat := (rotr 2 x) ^^^ (rotr 13 x) ^^^ (rotr 22 x)

def bigSigma1 (x : Nat) : Nat := (rotr 6 x) ^^^ (rotr 11 x) ^^^ (rotr 25 x)

def smallSigma0 (x : Nat) : Nat := (rotr 7 x) ^^^ (rotr 18 x) ^^^ (x >>> 3)

def smallSigma1 (x : Nat) : Nat := (rotr 17 x) ^^^ (rotr 19 x) ^^^ (x >>> 10)

def chWord (x y z : Nat) : Nat := (x &&& y) ^^^ ((x ^^^ 4294967295) &&& z)

def majWord (x y z : Nat) : Nat := (x &&& y) ^^^ (x &&& z) ^^^ (y &&& z)

/-- The SHA-256 round constants (FIPS 180-4, written in decimal). -/
def sha256K : List Nat :=
  [1116352408, 1899447441, 3049323471, 3921009573, 961987163, 1508970993,
   2453635748, 2870763221, 3624381080, 310598401, 607225278, 1426881987,
   1925078388, 2162078206, 2614888103, 3248222580, 3835390401, 4022224774,
   264347078, 604807628, 770255983, 1249150122, 1555081692, 1996064986,
   2554220882, 2821834349, 2952996808, 3210313671, 3336571891, 3584528711,
   113926993, 338241895, 666307205, 773529912, 1294757372, 1396182291,
   1695183700, 1986661051, 2177026350, 2456956037, 2730485921, 2820302411,
   3259730800, 3345764771, 3516065817, 3600352804, 4094571909, 275423344,
   430227734, 506948616, 659060556, 883997877, 958139571, 1322822218,
   1537002063, 1747873779, 1955562222, 2024104815, 2227730452, 2361852424,
   2428436474, 2756734187, 3204031479, 3329325298]

/-- The SHA-256 initial hash state (FIPS 180-4, written in decimal). -/
def sha256H0 : List Nat :=
  [1779033703, 3144134277, 1013904242, 2773480762,
   1359893119, 2600822924, 528734635, 1541459225]

/-- Big-endian byte encoding of `n` on `k` bytes. -/
def beBytes : Nat → Nat → List Nat
  | 0, _ => []
  | k + 1, n => beBytes k (n >>> 8) ++ [n &&& 255]

/-- SHA-256 padding: append `0x80`, zeros to 56 mod 64, then the 64-bit
big-endian bit length. -/
def padMessage (msg : List Nat) : List Nat :=
  let L := msg.length
  let zeros := (119 - L % 64) % 64
  msg ++ 128 :: List.replicate zeros 0 ++ beBytes 8 (8 * L)

/-- Group a byte list into big-endian 32-bit words. -/
def toWords : List Nat → List Nat
  | a :: b :: c :: d :: rest =>
      ((a <<< 24) ||| (b <<< 16) ||| (c <<< 8) ||| d) :: toWords rest
  | _ => []

/-- One step of the message-schedule extension: append word `W[t]`. -/
def scheduleStep (ws : List Nat) : List Nat :=
  let n := ws.length
  ws ++ [w32 (smallSigma1 (ws.getD (n - 2) 0) + ws.getD (n - 7) 0 +
              smallSigma0 (ws.getD (n - 15) 0) + ws.getD (n - 16) 0)]

/-- Extend the 16 block words to the 64 schedule words. -/
def msgSchedule (block : List Nat) : List Nat :=
  (List.range 48).foldl (fun ws _ => scheduleStep ws) block

/-- One SHA-256 round on the state `[a,b,c,d,e,f,g,h]`. -/
def roundStep (st : List Nat) (kw : Nat × Nat) : List Nat :=
  match st with
  | [a, b, c, d, e, f, g, h] =>
      let t1 := w32 (h + bigSigma1 e + chWord e f g + kw.1 + kw.2)
      let t2 := w32 (bigSigma0 a + majWord a b c)
      [w32 (t1 + t2), a, b, c, w32 (d + t1), e, f, g]
  | _ => st

/-- Compress one 64-byte block into the hash state. -/
def sha256Compress (h : List Nat) (block : List Nat) : List Nat :=
  let ws := msgSchedule (toWords block)
  let st := (sha256K.zip ws).foldl roundStep h
  List.zipWith (fun x y => w32 (x + y)) h st

/-- SHA-256 of a byte sequence, as 32 bytes. -/
def sha256 (msg : List Nat) : List Nat :=
  let padded := padMessage msg
  let nb := padded.length / 64
  let hh := (List.range nb).foldl
    (fun h i => sha256Compress h ((padded.drop (64 * i)).take 64)) sha256H0
  hh.foldr (fun w acc => beBytes 4 w ++ acc) []

/-! ## HMAC-SHA256 (crypto/hmac) and hex encoding (encoding/hex) -/

/-- HMAC-SHA256 with block size 64, as in `crypto/hmac` over `sha256.New`. -/
def hmacSha256 (key msg : List Nat) : List Nat :=
  let k0 := if 64 < key.length then sha256 key else key
  let k := k0 ++ List.replicate (64 - k0.length) 0
  let inner := sha256 (k.map (fun b => b ^^^ 0x36) ++ msg)
  sha256 (k.map (fun b => b ^^^ 0x5c) ++ inner)

/-- ASCII code of the lowercase hex digit for `n < 16`. -/
def hexDigit (n : Nat) : Nat := if n < 10 then 48 + n else 87 + n

/-- Lowercase hex encoding of a byte sequence, as ASCII bytes
(`hex.EncodeToString`). -/
def hexEncode (bs : List Nat) : List Nat :=
  bs.foldr (fun b acc => hexDigit ((b >>> 4) &&& 15) :: hexDigit (b &&& 15) :: acc) []

/-- UTF-8 bytes of an ASCII string (all uses below are ASCII). -/
def strBytes (s : String) : List Nat := s.data.map Char.toNat

/-! ## Webhook ingress (client/webhook.go)

`WebhookEvent` keeps the two fields the verified properties are about
(`UpdateID`, used by the polling worker, and the `type` discriminant,
called `eventType` here since `Type` is reserved in Lean); the remaining
fields of the Go struct are opaque payload the client only forwards. -/

structure WebhookEvent where
  UpdateID : Int
  eventType : String
deriving DecidableEq

structure WebhookHandler where
  secret : List Nat
deriving DecidableEq

/-- `(*WebhookHandler).VerifySignature`: with an empty secret verification
is skipped (returns true); otherwise the received signature bytes are
compared with the lowercase hex HMAC-SHA256 of the body under the secret
(`hmac.Equal` on byte slices is byte-list equality). -/
def VerifySignature (wh : WebhookHandler) (signature : List Nat) (body : List Nat) : Bool :=
  if wh.secret = [] then true
  else signature = hexEncode (hmacSha256 wh.secret body)

/-- An inbound HTTP request as `ParseRequest` observes it: the method, the
`X-Signature` header (`Header.Get` yields `""` when the header is absent)
and the raw body bytes (a successful `io.ReadAll`). -/
structure HttpRequest where
  method : String
  xSignature : String
  body : List Nat

inductive ParseError where
  | invalidMethod
  | missingSignature
  | signatureInvalid
  | unmarshalError
  | missingType
deriving DecidableEq

/-- `(*WebhookHandler).ParseRequest`. `decode` stands for
`json.Unmarshal` into `WebhookEvent` (`none` = unmarshal error); it is a
parameter so that theorems can express that the body is never decoded
before the signature check passes. -/
def ParseRequest (wh : WebhookHandler) (decode : List Nat → Option WebhookEvent)
    (r : HttpRequest) : Except ParseError WebhookEvent :=
  if r.method ≠ "POST" then .error .invalidMethod
  else if r.xSignature = "" then .error .missingSignature
  else if ¬ VerifySignature wh (strBytes r.xSignature) r.body then .error .signatureInvalid
  else
    match decode r.body with
    | none => .error .unmarshalError
    | some event =>
        if event.eventType = "" then .error .missingType
        else .ok event

/-! ## Client constants and errors (client/client.go, client/errors.go) -/

def maxRetries : Nat := 3

/-- `retryDelay = 1 * time.Second`, in seconds. -/
def retryDelay : Nat := 1

/-- `rateLimitDelay = 5 * time.Second`, in seconds. -/
def rateLimitDelay : Nat := 5

/-- The classified errors an operation run under `retryRequest` can
return. `requestError`, `networkError`, `decodeError` are the wrapped
`fmt.Errorf` failures of the per-call closures; `apiError` is what
`parseAPIError` produces for a status ≥ 400; `canceled` is `ctx.Err()`;
the sentinel values of `errors.go` that `retryRequest` inspects get their
own constructors. None of the closures wraps the sentinels, so
`errors.Is` coincides with constructor equality. -/
inductive ClientError where
  | invalidChatID
  | unauthorized
  | rateLimit
  | apiError (code : Nat) (msg : String)
  | requestError (msg : String)
  | networkError (msg : String)
  | decodeError (msg : String)
  | canceled
deriving DecidableEq

/-! ## Retry policy (client/retry.go)

`retryRequest` is embedded with explicit accounting: the operation `fn`
is attempt-indexed and returns, besides its error, the seconds it slept
internally (the `SendMessage` closure sleeps `rateLimitDelay` before
returning `ErrRateLimit`); `ctxDone i` tells whether the context is
cancelled at the check preceding attempt `i`. The result records the
returned error (`none` = success), the number of invocations of `fn`,
and the total seconds slept. -/

structure RetryResult where
  err : Option ClientError
  calls : Nat
  slept : Nat
deriving DecidableEq

/-- The loop of `retryRequest`, structured on the remaining attempts
`fuel` (`fuel = maxRetries - i`). The `time.Sleep(retryDelay)` is guarded
by `i < maxRetries-1`, i.e. by `1 ≤ fuel` after the decrement. -/
def retryAux (ctxDone : Nat → Bool) (fn : Nat → Option ClientError × Nat) :
    Nat → Nat → Option ClientError → Nat → Nat → RetryResult
  | 0, _, lastErr, calls, slept => ⟨lastErr, calls, slept⟩
  | fuel + 1, i, _lastErr, calls, slept =>
    if ctxDone i then ⟨some .canceled, calls, slept⟩
    else
      match fn i with
      | (none, s) => ⟨none, calls + 1, slept + s⟩
      | (some e, s) =>
        if e = .invalidChatID ∨ e = .unauthorized then ⟨some e, calls + 1, slept + s⟩
        else
          retryAux ctxDone fn fuel (i + 1) (some e) (calls + 1)
            (slept + s + if fuel = 0 then 0 else retryDelay)

/-- `(*Client).retryRequest`. -/
def retryRequest (ctxDone : Nat → Bool) (fn : Nat → Option ClientError × Nat) : RetryResult :=
  retryAux ctxDone fn maxRetries 0 none 0 0

/-! ## One `SendMessage` attempt (client/client.go) -/

/-- `MessageResponse` (client/types.go), without the `time.Time` field. -/
structure MessageResponse where
  id : String
  status : String
deriving DecidableEq

/-- What one HTTP round-trip of the `SendMessage` closure can observe:
request construction failed, the network call failed, or a response with
a status code arrived. `errBody` stands for the classified message
`parseAPIError` extracts on statuses ≥ 400, `decoded` for the result of
decoding the success body into `MessageResponse` (`none` = decode
failure). -/
inductive HTTPOutcome where
  | reqError (msg : String)
  | netError (msg : String)
  | resp (status : Nat) (errBody : String) (decoded : Option MessageResponse)

/-- The body of the closure `SendMessage` passes to `retryRequest`: on
HTTP 429 it sleeps `rateLimitDelay` and returns `ErrRateLimit`; on other
statuses ≥ 400 it returns `parseAPIError`'s error; otherwise it decodes
the body. The second component is the seconds slept inside the call. -/
def sendMessageOnce (o : HTTPOutcome) : Option ClientError × Nat :=
  match o with
  | .reqError m => (some (.requestError m), 0)
  | .netError m => (some (.networkError m), 0)
  | .resp status errBody decoded =>
    if status = 429 then (some .rateLimit, rateLimitDelay)
    else if 400 ≤ status then (some (.apiError status errBody), 0)
    else
      match decoded with
      | none => (some (.decodeError "error decoding response"), 0)
      | some _ => (none, 0)

/-- `SendMessage`'s retry loop, given the outcome of each attempt. -/
def sendMessageRetry (ctxDone : Nat → Bool) (outcomes : Nat → HTTPOutcome) : RetryResult :=
  retryRequest ctxDone (fun i => sendMessageOnce (outcomes i))

/-! ## Long-poll engine (client/polling.go)

The worker is an infinite loop driven by the environment: what each
`getUpdates` fetch produces, whether the buffered channel happens to be
full when a non-blocking error send is attempted, and where the resolved
nondeterminism of each `select` lands (the context branch or not). A run
is observed along a finite prefix of loop iterations; the model returns
the final cursor (`config.UpdateOffset`), the trace of records placed on
the delivery channel — each paired with the cursor value immediately
after it was placed — and the total seconds slept. -/

/-- Errors the polling loop reports through `sendUpdateError`; their
structure is irrelevant to the verified properties. -/
abbrev PollError := String

/-- `PollingUpdate` (client/polling.go): `UpdateID` and `Event` stay at
their zero values (`0`, `none`) in an error record. -/
structure PollingUpdate where
  UpdateID : Int
  Event : Option WebhookEvent
  Error : Option PollError
deriving DecidableEq

/-- The delivery record of a fetched event. -/
def eventRecord (e : WebhookEvent) : PollingUpdate :=
  { UpdateID := e.UpdateID, Event := some e, Error := none }

/-- The delivery record of a polling error (only `Error` populated). -/
def errorRecord (err : PollError) : PollingUpdate :=
  { UpdateID := 0, Event := none, Error := some err }

/-- `sendUpdateError`: non-blocking send on the buffered channel with
capacity `cap` and current contents `buffered` — the record is appended
when there is room and silently dropped otherwise. -/
def sendUpdateError (cap : Nat) (buffered : List PollingUpdate) (err : PollError) :
    List PollingUpdate :=
  if buffered.length < cap then buffered ++ [errorRecord err] else buffered

/-- What one `getUpdates` fetch of the polling loop produces:
request-construction failure, network failure, a non-200 status (the
error is what `parseAPIError` returned), a JSON decode failure, a decoded
response with `ok = false`, or a decoded `ok` response with its batch of
events. -/
inductive FetchResult where
  | reqError (e : PollError)
  | netError (e : PollError)
  | badStatus (e : PollError)
  | decodeFailure (e : PollError)
  | notOK
  | ok (events : List WebhookEvent)

/-- The environment of one loop iteration: whether `ctx.Done()` is
already closed at the top-of-loop `select`, what the fetch produced,
whether the channel is full at a non-blocking error send, and — for a
batch — whether the per-event `select` resolves to the `ctx.Done()`
branch before the `(k+1)`-st send (`cancelAt = some k`; `none` = every
send completes). -/
structure IterSpec where
  ctxDone : Bool
  fetch : FetchResult
  chanFull : Bool
  cancelAt : Option Nat

/-- The delivery loop over one fetched batch
(`for _, update := range apiResponse.Result`): each completed send
appends the event's record and advances the cursor to `UpdateID + 1`;
if the `select` resolves to cancellation the worker returns (third
component `true`). An empty batch performs no `select` at all. -/
def processBatch : Int → List WebhookEvent → Option Nat →
    Int × List (PollingUpdate × Int) × Bool
  | off, [], _ => (off, [], false)
  | off, e :: rest, cancelAt =>
    match cancelAt with
    | some 0 => (off, [], true)
    | _ =>
      let off' := e.UpdateID + 1
      let (offF, tr, stopped) := processBatch off' rest (cancelAt.map (· - 1))
      (offF, (eventRecord e, off') :: tr, stopped)

/-- `(*Client).pollingWorker`, observed along a finite prefix of loop
iterations; `rd` is `config.RetryDelay` in seconds. Error iterations
attempt a non-blocking error record, sleep `rd` and continue without
touching the cursor; a `not ok` response only sleeps; a batch is
delivered by `processBatch`, and the worker returns early if the context
is done at the top of the loop or cancellation resolved a mid-batch
`select`. -/
def pollingWorker (rd : Nat) : Int → List IterSpec →
    Int × List (PollingUpdate × Int) × Nat
  | off, [] => (off, [], 0)
  | off, it :: rest =>
    if it.ctxDone then (off, [], 0)
    else
      match it.fetch with
      | .reqError e | .netError e | .badStatus e | .decodeFailure e =>
        let tr := if it.chanFull then [] else [(errorRecord e, off)]
        let (off', tr', slept) := pollingWorker rd off rest
        (off', tr ++ tr', slept + rd)
      | .notOK =>
        let (off', tr', slept) := pollingWorker rd off rest
        (off', tr', slept + rd)
      | .ok events =>
        let (off1, tr1, stopped) := processBatch off events it.cancelAt
        if stopped then (off1, tr1, 0)
        else
          let (off2, tr2, slept) := pollingWorker rd off1 rest
          (off2, tr1 ++ tr2, slept)

/-- The cursor value reached after delivering a whole batch starting
from `off`. -/
def advanceOffset (off : Int) (events : List WebhookEvent) : Int :=
  events.foldl (fun _ e => e.UpdateID + 1) off

/-- The cursor discipline along a trace: starting from `prev`, an event
record is followed by cursor value `UpdateID + 1`, an error record
leaves the cursor unchanged. -/
def cursorOK : Int → List (PollingUpdate × Int) → Prop
  | _, [] => True
  | prev, (u, o) :: rest =>
    (match u.Event with
     | some e => o = e.UpdateID + 1
     | none => o = prev) ∧ cursorOK o rest

/-- The update ids of the event records of a trace, in delivery order. -/
def deliveredIds (tr : List (PollingUpdate × Int)) : List Int :=
  tr.filterMap (fun p => p.1.Event.map (·.UpdateID))

end MaxBot

namespace MaxBot

/-! ## Unfolding lemmas for the retry loop -/

/-- The loop returns the last error when the attempt budget is spent. -/
theorem retryAux_zero (ctxDone : Nat → Bool) (fn : Nat → Option ClientError × Nat)
    (i : Nat) (lastErr : Option ClientError) (calls slept : Nat) :
    retryAux ctxDone fn 0 i lastErr calls slept = ⟨lastErr, calls, slept⟩ := rfl

/-- A successful attempt ends the loop with no error. -/
theorem retryAux_ok_step (ctxDone : Nat → Bool) (fn : Nat → Option ClientError × Nat)
    (fuel i : Nat) (lastErr : Option ClientError) (calls slept s : Nat)
    (hc : ctxDone i = false) (hfn : fn i = (none, s)) :
    retryAux ctxDone fn (fuel + 1) i lastErr calls slept = ⟨none, calls + 1, slept + s⟩ := by
  simp [retryAux, hc, hfn]

/-- A non-retryable sentinel ends the loop at once with that error. -/
theorem retryAux_break_step (ctxDone : Nat → Bool) (fn : Nat → Option ClientError × Nat)
    (fuel i : Nat) (lastErr : Option ClientError) (calls slept : Nat) (e : ClientError) (s : Nat)
    (hc : ctxDone i = false) (hfn : fn i = (some e, s))
    (hk : e = .invalidChatID ∨ e = .unauthorized) :
    retryAux ctxDone fn (fuel + 1) i lastErr calls slept = ⟨some e, calls + 1, slept + s⟩ := by
  simp [retryAux, hc, hfn, hk]

/-- Any other error is retried, after the fixed delay when attempts
remain. -/
theorem retryAux_fail_step (ctxDone : Nat → Bool) (fn : Nat → Option ClientError × Nat)
    (fuel i : Nat) (lastErr : Option ClientError) (calls slept : Nat) (e : ClientError) (s : Nat)
    (hc : ctxDone i = false) (hfn : fn i = (some e, s))
    (h1 : e ≠ .invalidChatID) (h2 : e ≠ .unauthorized) :
    retryAux ctxDone fn (fuel + 1) i lastErr calls slept =
      retryAux ctxDone fn fuel (i + 1) (some e) (calls + 1)
        (slept + s + if fuel = 0 then 0 else retryDelay) := by
  simp [retryAux, hc, hfn, h1, h2]

/-- A run in which all three attempts fail with retryable errors:
three invocations, the last error, the operations' internal sleeps plus
two fixed inter-attempt delays. -/
theorem retryRequest_three_failures (ctxDone : Nat → Bool)
    (fn : Nat → Option ClientError × Nat) (e0 e1 e2 : ClientError) (s0 s1 s2 : Nat)
    (hc : ∀ i, ctxDone i = false)
    (h0 : fn 0 = (some e0, s0)) (h1 : fn 1 = (some e1, s1)) (h2 : fn 2 = (some e2, s2))
    (r0 : e0 ≠ .invalidChatID ∧ e0 ≠ .unauthorized)
    (r1 : e1 ≠ .invalidChatID ∧ e1 ≠ .unauthorized)
    (r2 : e2 ≠ .invalidChatID ∧ e2 ≠ .unauthorized) :
    retryRequest ctxDone fn = ⟨some e2, 3, s0 + s1 + s2 + 2 * retryDelay⟩ := by
  show retryAux ctxDone fn (2 + 1) 0 none 0 0 = _
  rw [retryAux_fail_step ctxDone fn 2 0 none 0 0 e0 s0 (hc 0) h0 r0.1 r0.2]
  rw [show (2 : Nat) = 1 + 1 from rfl,
    retryAux_fail_step ctxDone fn 1 1 (some e0) 1 _ e1 s1 (hc 1) h1 r1.1 r1.2]
  rw [show (1 : Nat) = 0 + 1 from rfl,
    retryAux_fail_step ctxDone fn 0 2 (some e1) 2 _ e2 s2 (hc 2) h2 r2.1 r2.2]
  rw [retryAux_zero]
  simp [retryDelay]
  omega

/-! ## Claims C6, C7, C5, C4 — the retry policy -/

/-- C6: an operation that returns `ErrUnauthorized` or `ErrInvalidChatID`
is invoked exactly once: `retryRequest` returns that error immediately,
with no retry delay of its own, regardless of the remaining attempt
budget. -/
theorem c6_nonretryable_once (ctxDone : Nat → Bool) (fn : Nat → Option ClientError × Nat)
    (e : ClientError) (hc : ctxDone 0 = false) (he : (fn 0).1 = some e)
    (hk : e = .invalidChatID ∨ e = .unauthorized) :
    retryRequest ctxDone fn = ⟨some e, 1, (fn 0).2⟩ := by
  have h0 : fn 0 = (some e, (fn 0).2) := by rw [← he]
  show retryAux ctxDone fn (2 + 1) 0 none 0 0 = _
  rw [retryAux_break_step ctxDone fn 2 0 none 0 0 e ((fn 0).2) hc h0 hk]
  simp

/-- C6 witness: a constant `ErrUnauthorized` operation is invoked once and
its error is returned at once. -/
theorem c6_witness :
    retryRequest (fun _ => false) (fun _ => (some .unauthorized, 0)) =
      ⟨some .unauthorized, 1, 0⟩ :=
  c6_nonretryable_once (fun _ => false) (fun _ => (some .unauthorized, 0))
    .unauthorized rfl rfl (Or.inr rfl)

/-- C7: an operation that fails on every attempt with a generic server
error (`parseAPIError`'s classified error) is invoked exactly
`maxRetries` = 3 times, and the error of the third (most recent) attempt
is returned — not an aggregate of the three. -/
theorem c7_exhaustion_last_error (ctxDone : Nat → Bool)
    (fn : Nat → Option ClientError × Nat)
    (hc : ∀ i, ctxDone i = false)
    (hfail : ∀ i, ∃ c m, (fn i).1 = some (.apiError c m)) :
    retryRequest ctxDone fn =
      ⟨(fn 2).1, 3, (fn 0).2 + (fn 1).2 + (fn 2).2 + 2 * retryDelay⟩ := by
  obtain ⟨c0, m0, h0⟩ := hfail 0
  obtain ⟨c1, m1, h1⟩ := hfail 1
  obtain ⟨c2, m2, h2⟩ := hfail 2
  have e0 : fn 0 = (some (.apiError c0 m0), (fn 0).2) := by rw [← h0]
  have e1 : fn 1 = (some (.apiError c1 m1), (fn 1).2) := by rw [← h1]
  have e2 : fn 2 = (some (.apiError c2 m2), (fn 2).2) := by rw [← h2]
  rw [h2]
  exact retryRequest_three_failures ctxDone fn _ _ _ _ _ _ hc e0 e1 e2
    ⟨by simp, by simp⟩ ⟨by simp, by simp⟩ ⟨by simp, by simp⟩

/-- C7 witness: three invocations of an always-500 operation, its error
returned, two fixed delays slept. -/
theorem c7_witness :
    retryRequest (fun _ => false) (fun _ => (some (.apiError 500 "boom"), 0)) =
      ⟨some (.apiError 500 "boom"), 3, 2⟩ := by
  have h := c7_exhaustion_last_error (fun _ => false)
    (fun _ => (some (.apiError 500 "boom"), 0)) (fun _ => rfl)
    (fun _ => ⟨500, "boom", rfl⟩)
  simpa [retryDelay] using h

/-- C5 counterexample: the claim says a response-decode failure is not
retried (one invocation). In the code `retryRequest` only stops early on
`ErrInvalidChatID`/`ErrUnauthorized`, so a `SendMessage` run whose every
response decodes badly invokes the operation 3 times, not once. -/
theorem c5_counterexample :
    sendMessageRetry (fun _ => false) (fun _ => .resp 200 "" none) =
      ⟨some (.decodeError "error decoding response"), 3, 2⟩ ∧ (3 : Nat) ≠ 1 := by
  constructor
  · rfl
  · decide

/-- C5 amended: a response-decode failure is retried like any generic
error: the operation is invoked exactly `maxRetries` = 3 times and the
decode error of the last attempt is returned. -/
theorem c5_decode_retried (ctxDone : Nat → Bool) (fn : Nat → Option ClientError × Nat)
    (hc : ∀ i, ctxDone i = false)
    (hdec : ∀ i, ∃ m, (fn i).1 = some (.decodeError m)) :
    (retryRequest ctxDone fn).calls = 3 ∧
    (retryRequest ctxDone fn).err = (fn 2).1 := by
  obtain ⟨m0, h0⟩ := hdec 0
  obtain ⟨m1, h1⟩ := hdec 1
  obtain ⟨m2, h2⟩ := hdec 2
  have e0 : fn 0 = (some (.decodeError m0), (fn 0).2) := by rw [← h0]
  have e1 : fn 1 = (some (.decodeError m1), (fn 1).2) := by rw [← h1]
  have e2 : fn 2 = (some (.decodeError m2), (fn 2).2) := by rw [← h2]
  rw [retryRequest_three_failures ctxDone fn _ _ _ _ _ _ hc e0 e1 e2
    ⟨by simp, by simp⟩ ⟨by simp, by simp⟩ ⟨by simp, by simp⟩, h2]
  exact ⟨rfl, rfl⟩

/-- C5 witness: an always-decode-failing `SendMessage` run makes three
invocations and surfaces the decode error. -/
theorem c5_witness :
    (sendMessageRetry (fun _ => false) (fun _ => .resp 200 "" none)).calls = 3 ∧
    (sendMessageRetry (fun _ => false) (fun _ => .resp 200 "" none)).err =
      some (.decodeError "error decoding response") :=
  c5_decode_retried (fun _ => false) (fun _ => sendMessageOnce (.resp 200 "" none))
    (fun _ => rfl) (fun _ => ⟨"error decoding response", rfl⟩)

/-- C4 counterexample: the claim says the ~5s rate-limit delay is applied
*instead of* the fixed ~1s delay. In the code the `SendMessage` closure
sleeps `rateLimitDelay` before returning `ErrRateLimit`, and
`retryRequest` then *also* sleeps its fixed `retryDelay`: a run that is
rate-limited once and succeeds on the second attempt sleeps
`rateLimitDelay + retryDelay` = 6 seconds between the attempts, not
`rateLimitDelay` = 5. -/
theorem c4_counterexample :
    sendMessageRetry (fun _ => false)
      (fun i => if i = 0 then .resp 429 "" none else .resp 200 "" (some ⟨"m1", "sent"⟩)) =
      ⟨none, 2, rateLimitDelay + retryDelay⟩ ∧
    rateLimitDelay + retryDelay ≠ rateLimitDelay := by
  constructor
  · rfl
  · decide

/-- C4 amended: on an HTTP 429 the operation itself sleeps the
rate-limit-specific `rateLimitDelay` (5s) before returning
`ErrRateLimit`, and the retry policy additionally applies its fixed
`retryDelay` (1s) before the next attempt; the rate-limited failure is
not terminal within the attempt budget: rate-limited on attempts 1 and 2
and success on attempt 3 yields overall success after three invocations,
with at least two rate-limit backoff intervals elapsed. -/
theorem c4_rate_limit_backoff (ctxDone : Nat → Bool) (outcomes : Nat → HTTPOutcome)
    (hc : ∀ i, ctxDone i = false)
    (h0 : ∃ b d, outcomes 0 = .resp 429 b d)
    (h1 : ∃ b d, outcomes 1 = .resp 429 b d)
    (h2 : ∃ s b r, outcomes 2 = .resp s b (some r) ∧ s ≠ 429 ∧ s < 400) :
    sendMessageRetry ctxDone outcomes =
      ⟨none, 3, 2 * rateLimitDelay + 2 * retryDelay⟩ ∧
    2 * rateLimitDelay ≤ (sendMessageRetry ctxDone outcomes).slept := by
  obtain ⟨b0, d0, h0⟩ := h0
  obtain ⟨b1, d1, h1⟩ := h1
  obtain ⟨s2, b2, r2, h2, hs2, hs2'⟩ := h2
  have f0 : sendMessageOnce (outcomes 0) = (some .rateLimit, rateLimitDelay) := by
    rw [h0]; simp [sendMessageOnce]
  have f1 : sendMessageOnce (outcomes 1) = (some .rateLimit, rateLimitDelay) := by
    rw [h1]; simp [sendMessageOnce]
  have f2 : sendMessageOnce (outcomes 2) = (none, 0) := by
    rw [h2]; simp [sendMessageOnce, hs2]
    omega
  have hmain : sendMessageRetry ctxDone outcomes =
      ⟨none, 3, 2 * rateLimitDelay + 2 * retryDelay⟩ := by
    show retryAux (fun i => ctxDone i) (fun i => sendMessageOnce (outcomes i))
      (2 + 1) 0 none 0 0 = _
    rw [retryAux_fail_step _ _ 2 0 none 0 0 .rateLimit rateLimitDelay (hc 0) f0
      (by simp) (by simp)]
    rw [show (2 : Nat) = 1 + 1 from rfl,
      retryAux_fail_step _ _ 1 1 (some .rateLimit) 1 _ .rateLimit rateLimitDelay (hc 1) f1
        (by simp) (by simp)]
    rw [show (1 : Nat) = 0 + 1 from rfl,
      retryAux_ok_step _ _ 0 2 (some .rateLimit) 2 _ 0 (hc 2) f2]
    simp [retryDelay, rateLimitDelay]
  refine ⟨hmain, ?_⟩
  rw [hmain]
  simp [rateLimitDelay, retryDelay]

/-- C4 witness: rate-limited on attempts 1 and 2, success on attempt 3 —
overall success, three invocations, 12 seconds slept (two 5s rate-limit
sleeps plus two 1s fixed delays), which is at least two rate-limit
intervals. -/
theorem c4_witness :
    sendMessageRetry (fun _ => false)
      (fun i => if i < 2 then .resp 429 "" none else .resp 200 "" (some ⟨"m1", "sent"⟩)) =
      ⟨none, 3, 12⟩ := by
  have h := (c4_rate_limit_backoff (fun _ => false)
    (fun i => if i < 2 then .resp 429 "" none else .resp 200 "" (some ⟨"m1", "sent"⟩))
    (fun _ => rfl)
    ⟨"", none, rfl⟩ ⟨"", none, rfl⟩
    ⟨200, "", ⟨"m1", "sent"⟩, rfl, by decide, by decide⟩).1
  simpa [rateLimitDelay, retryDelay] using h

/-! ## Claims C2, C9, C10 — webhook ingress -/

/-- C2: with a non-empty secret, `VerifySignature` accepts exactly the
lowercase hex HMAC-SHA256 of the body under that secret: the correct
digest verifies, and every signature that differs from it is rejected. -/
theorem c2_verify_signature (secret body : List Nat) (hs : secret ≠ []) :
    VerifySignature ⟨secret⟩ (hexEncode (hmacSha256 secret body)) body = true ∧
    ∀ sig, sig ≠ hexEncode (hmacSha256 secret body) →
      VerifySignature ⟨secret⟩ sig body = false := by
  refine ⟨by simp [VerifySignature, hs], fun sig hne => ?_⟩
  simp [VerifySignature, hs, hne]

/-- C2 witness: for secret `s3cr3t` and the body `{"type":"message"}`,
the HMAC-SHA256 hex digest verifies, and the digest of the body truncated
by one byte does not. -/
theorem c2_witness :
    VerifySignature ⟨strBytes "s3cr3t"⟩
      (hexEncode (hmacSha256 (strBytes "s3cr3t") (strBytes "\x7b\"type\":\"message\"\x7d")))
      (strBytes "\x7b\"type\":\"message\"\x7d") = true ∧
    VerifySignature ⟨strBytes "s3cr3t"⟩
      (hexEncode (hmacSha256 (strBytes "s3cr3t") (strBytes "\x7b\"type\":\"message\"")))
      (strBytes "\x7b\"type\":\"message\"\x7d") = false :=
  ⟨(c2_verify_signature (strBytes "s3cr3t") (strBytes "\x7b\"type\":\"message\"\x7d")
      (by decide)).1,
   (c2_verify_signature (strBytes "s3cr3t") (strBytes "\x7b\"type\":\"message\"\x7d")
      (by decide)).2 _ (by decide)⟩

/-- C9: `ParseRequest` succeeds exactly when the method is POST, the
`X-Signature` header is non-empty, the signature verifies, the body
decodes and the decoded `type` is non-empty; and on a signature mismatch
the request is rejected with the signature error independently of the
JSON decoder — the body is never decoded. -/
theorem c9_parse_request (wh : WebhookHandler) :
    (∀ (decode : List Nat → Option WebhookEvent) (r : HttpRequest) (ev : WebhookEvent),
      ParseRequest wh decode r = .ok ev ↔
        r.method = "POST" ∧ r.xSignature ≠ "" ∧
        VerifySignature wh (strBytes r.xSignature) r.body = true ∧
        decode r.body = some ev ∧ ev.eventType ≠ "") ∧
    (∀ (d₁ d₂ : List Nat → Option WebhookEvent) (r : HttpRequest),
      r.method = "POST" → r.xSignature ≠ "" →
      VerifySignature wh (strBytes r.xSignature) r.body = false →
      ParseRequest wh d₁ r = .error .signatureInvalid ∧
      ParseRequest wh d₁ r = ParseRequest wh d₂ r) := by
  constructor
  · intro decode r ev
    by_cases hm : r.method = "POST"
    · by_cases hsig : r.xSignature = ""
      · simp [ParseRequest, hm, hsig]
      · by_cases hv : VerifySignature wh (strBytes r.xSignature) r.body = true
        · cases hd : decode r.body with
          | none => simp [ParseRequest, hm, hsig, hv, hd]
          | some e' =>
            by_cases ht : e'.eventType = ""
            · simp [ParseRequest, hm, hsig, hv, hd, ht]
              aesop
            · simp [ParseRequest, hm, hsig, hv, hd, ht]
              aesop
        · simp [ParseRequest, hm, hsig, hv]
    · simp [ParseRequest, hm]
  · intro d₁ d₂ r hm hsig hv
    constructor <;> simp [ParseRequest, hm, hsig, hv]

/-- C9 witness: a POST request with a present but wrong signature is
rejected with the signature-invalid error, under an arbitrary decoder. -/
theorem c9_witness :
    ParseRequest ⟨strBytes "k"⟩ (fun _ => some ⟨1, "message"⟩)
      ⟨"POST", "deadbeef", strBytes "x"⟩ = .error .signatureInvalid :=
  ((c9_parse_request ⟨strBytes "k"⟩).2 (fun _ => some ⟨1, "message"⟩) (fun _ => none)
    ⟨"POST", "deadbeef", strBytes "x"⟩ rfl (by decide) (by decide)).1

/-- C10: with an unconfigured (empty) secret `VerifySignature` accepts
every signature and body, yet `ParseRequest` still rejects every request
whose `X-Signature` header is absent — with the missing-signature error
when the method check has passed — so the insecure-mode skip never
bypasses the header-presence check. -/
theorem c10_empty_secret_header_required :
    (∀ sig body, VerifySignature ⟨[]⟩ sig body = true) ∧
    (∀ (decode : List Nat → Option WebhookEvent) (r : HttpRequest),
      r.xSignature = "" →
      (∀ ev, ParseRequest ⟨[]⟩ decode r ≠ .ok ev) ∧
      (r.method = "POST" → ParseRequest ⟨[]⟩ decode r = .error .missingSignature)) := by
  constructor
  · intro sig body
    simp [VerifySignature]
  · intro decode r hsig
    by_cases hm : r.method = "POST"
    · constructor
      · intro ev
        simp [ParseRequest, hm, hsig]
      · intro _
        simp [ParseRequest, hm, hsig]
    · constructor
      · intro ev
        simp [ParseRequest, hm]
      · intro h
        exact absurd h hm

/-- C10 witness: with an empty secret, a POST request with no
`X-Signature` header is rejected with the missing-signature error even
though signature verification would accept anything. -/
theorem c10_witness :
    ParseRequest ⟨[]⟩ (fun _ => some ⟨1, "message"⟩) ⟨"POST", "", [65]⟩ =
      .error .missingSignature :=
  ((c10_empty_secret_header_required.2 (fun _ => some ⟨1, "message"⟩)
    ⟨"POST", "", [65]⟩ rfl).2) rfl

/-! ## Lemmas about the batch-delivery loop -/

/-- With no concurrent cancellation, a whole batch is delivered in
arrival order (independently of the channel occupancy: the send is
blocking, not dropping) and the cursor ends at the last id + 1. -/
theorem processBatch_no_cancel (off : Int) (evs : List WebhookEvent) :
    processBatch off evs none =
      (advanceOffset off evs,
       evs.map (fun e => (eventRecord e, e.UpdateID + 1)), false) := by
  induction evs generalizing off with
  | nil => simp [processBatch, advanceOffset]
  | cons e rest ih => simp [processBatch, ih, advanceOffset]

/-- When the per-event `select` resolves to cancellation before the
`(k+1)`-st send of a batch, exactly the first `k` events have been
delivered, in order; the cursor sits after the last delivered event and
the worker reports a stop. -/
theorem processBatch_cancel (off : Int) (evs : List WebhookEvent) (k : Nat)
    (hk : k < evs.length) :
    processBatch off evs (some k) =
      (advanceOffset off (evs.take k),
       (evs.take k).map (fun e => (eventRecord e, e.UpdateID + 1)), true) := by
  induction evs generalizing off k with
  | nil => simp at hk
  | cons e rest ih =>
    cases k with
    | zero => simp [processBatch, advanceOffset]
    | succ k' =>
      have hk' : k' < rest.length := by simpa using hk
      simp [processBatch, ih _ _ hk', advanceOffset]

/-! ## Claim C3 — blocking delivery, order, cancellation -/

/-- C3: in the polling worker every event of a successfully fetched batch
is placed on the delivery channel by a blocking send selected against
cancellation: whatever the channel occupancy, with no cancellation the
whole batch is delivered in arrival order and the loop continues; and if
cancellation resolves the `select` before the `(k+1)`-st send the worker
stops right there — the first `k` events delivered in order, the
remaining ones neither delivered nor skipped past by the cursor. -/
theorem c3_blocking_delivery (rd : Nat) (off : Int) (evs : List WebhookEvent)
    (full : Bool) (rest : List IterSpec) :
    (pollingWorker rd off ({ ctxDone := false
                             fetch := .ok evs
                             chanFull := full
                             cancelAt := none } :: rest) =
      ((pollingWorker rd (advanceOffset off evs) rest).1,
       evs.map (fun e => (eventRecord e, e.UpdateID + 1)) ++
         (pollingWorker rd (advanceOffset off evs) rest).2.1,
       (pollingWorker rd (advanceOffset off evs) rest).2.2)) ∧
    (∀ k, k < evs.length →
      pollingWorker rd off ({ ctxDone := false
                              fetch := .ok evs
                              chanFull := full
                              cancelAt := some k } :: rest) =
        (advanceOffset off (evs.take k),
         (evs.take k).map (fun e => (eventRecord e, e.UpdateID + 1)), 0)) := by
  constructor
  · cases evs with
    | nil => simp [pollingWorker, processBatch, advanceOffset]
    | cons e rest' => simp [pollingWorker, processBatch_no_cancel]
  · intro k hk
    simp [pollingWorker, processBatch_cancel off evs k hk]

/-- C3 witness: a two-event batch with cancellation resolving before the
second send delivers exactly the first event and stops with the cursor at
its id + 1. -/
theorem c3_witness :
    pollingWorker 1 0 [⟨false, .ok [⟨7, "message"⟩, ⟨8, "message"⟩], false, some 1⟩] =
      (8, [(⟨7, some ⟨7, "message"⟩, none⟩, 8)], 0) := by
  rw [(c3_blocking_delivery 1 0 [⟨7, "message"⟩, ⟨8, "message"⟩] false []).2 1 (by decide)]
  decide

/-! ## Cursor-tracking lemmas -/

/-- The cursor value after the last record of a trace, starting from
`prev`. -/
def lastOffset : Int → List (PollingUpdate × Int) → Int
  | prev, [] => prev
  | _, (_, o) :: rest => lastOffset o rest

theorem lastOffset_append (prev : Int) (t1 t2 : List (PollingUpdate × Int)) :
    lastOffset prev (t1 ++ t2) = lastOffset (lastOffset prev t1) t2 := by
  induction t1 generalizing prev with
  | nil => rfl
  | cons p rest ih => cases p; simp [lastOffset, ih]

theorem cursorOK_append (prev : Int) (t1 t2 : List (PollingUpdate × Int)) :
    cursorOK prev (t1 ++ t2) ↔ cursorOK prev t1 ∧ cursorOK (lastOffset prev t1) t2 := by
  induction t1 generalizing prev with
  | nil => simp [cursorOK, lastOffset]
  | cons p rest ih => cases p; simp [cursorOK, lastOffset, ih, and_assoc]

/-- The batch loop respects the cursor discipline, and its resulting
cursor is the one recorded after its last delivered event. -/
theorem processBatch_cursor (off : Int) (evs : List WebhookEvent) (c : Option Nat) :
    cursorOK off (processBatch off evs c).2.1 ∧
    (processBatch off evs c).1 = lastOffset off (processBatch off evs c).2.1 := by
  induction evs generalizing off c with
  | nil => simp [processBatch, cursorOK, lastOffset]
  | cons e rest ih =>
    match c with
    | some 0 => simp [processBatch, cursorOK, lastOffset]
    | some (k + 1) =>
      have h := ih (e.UpdateID + 1) (some k)
      simpa [processBatch, cursorOK, lastOffset, eventRecord] using h
    | none =>
      have h := ih (e.UpdateID + 1) none
      simpa [processBatch, cursorOK, lastOffset, eventRecord] using h

/-- The polling worker respects the cursor discipline along its whole
trace, and its final cursor is the one recorded after the last record. -/
theorem pollingWorker_cursor (rd : Nat) (off : Int) (env : List IterSpec) :
    cursorOK off (pollingWorker rd off env).2.1 ∧
    (pollingWorker rd off env).1 = lastOffset off (pollingWorker rd off env).2.1 := by
  induction env generalizing off with
  | nil => simp [pollingWorker, cursorOK, lastOffset]
  | cons it rest ih =>
    obtain ⟨d, fetch, cf, ca⟩ := it
    cases d with
    | true => simp [pollingWorker, cursorOK, lastOffset]
    | false =>
      cases fetch with
      | reqError e | netError e | badStatus e | decodeFailure e =>
        cases cf with
        | true => simpa [pollingWorker] using ih off
        | false =>
          have h := ih off
          simp [pollingWorker, cursorOK, lastOffset, errorRecord]
          exact ⟨h.1, h.2⟩
      | notOK => simpa [pollingWorker] using ih off
      | ok evs =>
        have hb := processBatch_cursor off evs ca
        rcases hs : processBatch off evs ca with ⟨off1, tr1, stopped⟩
        rw [hs] at hb
        cases stopped with
        | true => simpa [pollingWorker, hs] using hb
        | false =>
          have h := ih off1
          simp only [pollingWorker, hs, if_false, Bool.false_eq_true, ite_false]
          simp [cursorOK_append, lastOffset_append, ← hb.2]
          exact ⟨⟨hb.1, h.1⟩, h.2⟩

/-- The update ids of an event-record trace, cons form. -/
theorem deliveredIds_cons (u : PollingUpdate) (o : Int) (tr : List (PollingUpdate × Int)) :
    deliveredIds ((u, o) :: tr) =
      (match u.Event with
       | some e => e.UpdateID :: deliveredIds tr
       | none => deliveredIds tr) := by
  cases h : u.Event <;> simp [deliveredIds, List.filterMap_cons, h]

/-- If the delivered update ids are nondecreasing and start no lower than
`prev - 1`, the cursor values along a discipline-respecting trace are
nondecreasing from `prev`. -/
theorem cursorOK_mono (tr : List (PollingUpdate × Int)) (prev : Int)
    (h : cursorOK prev tr)
    (hm : List.Chain' (· ≤ ·) ((prev - 1) :: deliveredIds tr)) :
    List.Chain' (· ≤ ·) (prev :: tr.map Prod.snd) := by
  induction tr generalizing prev with
  | nil => simp
  | cons p rest ih =>
    obtain ⟨u, o⟩ := p
    obtain ⟨h1, h2⟩ := h
    rw [deliveredIds_cons] at hm
    cases hu : u.Event with
    | some e =>
      rw [hu] at h1 hm
      rw [List.chain'_cons] at hm
      have hpo : prev ≤ o := by omega
      have hm' : List.Chain' (· ≤ ·) ((o - 1) :: deliveredIds rest) := by
        have : o - 1 = e.UpdateID := by omega
        rw [this]
        exact hm.2
      simp only [List.map_cons, List.chain'_cons]
      exact ⟨hpo, ih o h2 hm'⟩
    | none =>
      rw [hu] at h1 hm
      subst h1
      simp only [List.map_cons, List.chain'_cons]
      exact ⟨le_refl _, ih o h2 hm⟩

/-! ## Claim C1 — cursor invariant -/

/-- C1 counterexample: the claim asserts the cursor never decreases for
*every* sequence of fetch results; but the worker sets it to
`UpdateID + 1` unconditionally, so one fetch whose batch carries ids
`[5, 2]` drives the cursor from 6 down to 3. -/
theorem c1_counterexample :
    ((pollingWorker 1 0 [⟨false, .ok [⟨5, "message"⟩, ⟨2, "message"⟩], false,
        none⟩]).2.1.map Prod.snd = [6, 3]) ∧
    ¬ List.Chain' (fun a b => a ≤ b)
      ((0 : Int) :: (pollingWorker 1 0 [⟨false, .ok [⟨5, "message"⟩, ⟨2, "message"⟩], false,
        none⟩]).2.1.map Prod.snd) := by
  refine ⟨rfl, fun h => ?_⟩
  rw [show ((pollingWorker 1 0 [⟨false, .ok [⟨5, "message"⟩, ⟨2, "message"⟩], false,
        none⟩]).2.1.map Prod.snd) = [6, 3] from rfl] at h
  rw [List.chain'_cons, List.chain'_cons] at h
  exact absurd h.2.1 (by norm_num)

/-- C1 amended: after each event record successfully placed on the
delivery channel the cursor equals that event's update id + 1; the cursor
changes only at successful event sends (error records leave it in
place), and the final cursor is the one recorded after the last send;
moreover, provided the delivered update ids are nondecreasing and start
no lower than the initial offset - 1 (the monotonicity the design assumes
of the remote service), the cursor never decreases across the run. -/
theorem c1_cursor_tracking (rd : Nat) (off : Int) (env : List IterSpec) :
    cursorOK off (pollingWorker rd off env).2.1 ∧
    (pollingWorker rd off env).1 = lastOffset off (pollingWorker rd off env).2.1 ∧
    (List.Chain' (· ≤ ·) ((off - 1) :: deliveredIds (pollingWorker rd off env).2.1) →
      List.Chain' (· ≤ ·) (off :: (pollingWorker rd off env).2.1.map Prod.snd)) := by
  obtain ⟨h1, h2⟩ := pollingWorker_cursor rd off env
  exact ⟨h1, h2, fun hm => cursorOK_mono _ off h1 hm⟩

/-- C1 witness: a run with nondecreasing delivered ids (a two-event batch
`[1, 2]`, a network failure, then a batch `[5]`) keeps the cursor
nondecreasing: 0, 2, 3, 3, 6. -/
theorem c1_witness :
    List.Chain' (· ≤ ·)
      ((0 : Int) :: (pollingWorker 1 0 [⟨false, .ok [⟨1, "message"⟩, ⟨2, "message"⟩], false, none⟩,
        ⟨false, .netError "net", false, none⟩,
        ⟨false, .ok [⟨5, "message"⟩], false, none⟩]).2.1.map Prod.snd) :=
  (c1_cursor_tracking 1 0 [⟨false, .ok [⟨1, "message"⟩, ⟨2, "message"⟩], false, none⟩,
        ⟨false, .netError "net", false, none⟩,
        ⟨false, .ok [⟨5, "message"⟩], false, none⟩]).2.2
    (by
      show List.Chain' (· ≤ ·) (((0 : Int) - 1) :: [1, 2, 5])
      norm_num [List.chain'_cons])

/-! ## Claim C8 — best-effort error records -/

/-- The fetch outcomes the claim covers: request-construction failure,
network failure and an error-status response. -/
def isTransportFailure : FetchResult → Bool
  | .reqError _ | .netError _ | .badStatus _ => true
  | _ => false

/-- The error carried by a failed fetch. -/
def fetchError : FetchResult → PollError
  | .reqError e | .netError e | .badStatus e | .decodeFailure e => e
  | _ => ""

/-- C8: on request-construction failure, network failure or an
error-status response, a record carrying only the error is offered to the
channel non-blockingly — `sendUpdateError` appends it when there is room
and drops it when the channel is full — and the worker sleeps the retry
delay and keeps looping with the cursor unchanged. -/
theorem c8_error_records :
    (∀ e, (errorRecord e).Event = none ∧ (errorRecord e).Error = some e) ∧
    (∀ cap buffered e, buffered.length < cap →
      sendUpdateError cap buffered e = buffered ++ [errorRecord e]) ∧
    (∀ cap buffered e, cap ≤ buffered.length →
      sendUpdateError cap buffered e = buffered) ∧
    (∀ (rd : Nat) (off : Int) (it : IterSpec) (rest : List IterSpec),
      it.ctxDone = false → isTransportFailure it.fetch = true →
      pollingWorker rd off (it :: rest) =
        ((pollingWorker rd off rest).1,
         (if it.chanFull then [] else [(errorRecord (fetchError it.fetch), off)]) ++
           (pollingWorker rd off rest).2.1,
         (pollingWorker rd off rest).2.2 + rd)) := by
  refine ⟨fun e => ⟨rfl, rfl⟩, fun cap buffered e h => ?_, fun cap buffered e h => ?_,
    fun rd off it rest hd hf => ?_⟩
  · simp [sendUpdateError, h]
  · simp [sendUpdateError, Nat.not_lt.mpr h]
  · obtain ⟨d, fetch, cf, ca⟩ := it
    cases d with
    | true => simp at hd
    | false =>
      cases fetch with
      | reqError e | netError e | badStatus e => rfl
      | decodeFailure e => simp [isTransportFailure] at hf
      | notOK => simp [isTransportFailure] at hf
      | ok evs => simp [isTransportFailure] at hf

/-- C8 witness: a network-failed iteration against a full channel drops
the error record, leaves the cursor at 0, sleeps the 1-second retry delay
and continues (here: to an empty environment). -/
theorem c8_witness :
    pollingWorker 1 0 [⟨false, .netError "dial tcp: timeout", true, none⟩] = (0, [], 1) := by
  rw [c8_error_records.2.2.2 1 0 ⟨false, .netError "dial tcp: timeout", true, none⟩ [] rfl rfl]
  rfl

end MaxBot
